import Mathlib

/-!
Verification of the Nova peer-to-peer client logic.

This development embeds the client-side session / negotiation logic of the
Nova video-chat application (the two browser clients in `static/js/app.js`
and the mobile-hardened variant, plus the iOS `WebRTCService` / `AppState`)
as explicit state-transition functions, and proves the invariants and
functional properties stated in the design document.

Modelling conventions:
- JavaScript event handlers run to completion on the single UI event loop
  (the design's concurrency model), so each handler is one atomic
  transition `ClientState → ClientState × List Emit`, where `Emit` records
  the signaling messages sent during that handler.
- The browser `getUserMedia` call is an oracle `Gum`: the environment
  decides, per constraint set, whether capture succeeds and which stream
  it yields.
- `setTimeout` callbacks (the 3-second ICE grace timer, the 0.5-second
  re-queue delays) are modelled as separate events that the environment
  may fire at any time; the handlers' own runtime guards carry the proofs.
- The ghost field `liveLinks` records the ids of peer connections that
  have been constructed and not yet closed, so the proofs can speak about
  links no longer referenced by the `pc` variable.
- The ghost field `stoppedStreams` records media streams whose tracks have
  been stopped (`stopCamera` / `cleanup`), i.e. released device resources.
-/

/-- A `getUserMedia` video constraint: ideal-resolution front camera,
front camera with no resolution hint, or any camera. -/
inductive VideoReq where
  | idealFront
  | front
  | anyCam
deriving DecidableEq, Repr

/-- One rung of the capture-constraint ladder: a video constraint plus
whether audio is requested. -/
structure MediaConstraint where
  video : VideoReq
  audio : Bool
deriving DecidableEq, Repr

/-- The capture oracle: for a given constraint set, the environment either
grants a stream (identified by a numeric id) or denies the request. -/
def Gum : Type := MediaConstraint → Option Nat

/-- The four rungs tried by the mobile web client's `getCamera`, in source
order: ideal resolution + front camera + audio; front camera + audio; any
camera + audio; any camera, video only. -/
def gumAttempts : List MediaConstraint :=
  [⟨.idealFront, true⟩, ⟨.front, true⟩, ⟨.anyCam, true⟩, ⟨.anyCam, false⟩]

/-- The single constraint set used by the basic web client's `getCamera`. -/
def basicConstraint : MediaConstraint := ⟨.idealFront, true⟩

/-- The `for(const c of attempts)` loop of the mobile `getCamera`: try each
constraint in order, return the first granted stream, `none` if all fail. -/
def tryAttempts (gum : Gum) : List MediaConstraint → Option Nat
  | [] => none
  | c :: rest =>
    match gum c with
    | some m => some m
    | none => tryAttempts gum rest

/-- ICE connection states of a peer connection (RTCIceConnectionState). -/
inductive IceState where
  | newState
  | checking
  | connected
  | completed
  | disconnected
  | failed
  | closedState
deriving DecidableEq, Repr

/-- Signaling messages emitted by the client.  A restart offer (created
with iceRestart true) is tagged to distinguish it from the initial offer
of a match cycle. -/
inductive Emit where
  | joinQueue
  | skipMsg
  | offerMsg (restart : Bool)
  | answerMsg
  | iceMsg
deriving DecidableEq, Repr

/-- The two web client variants: `basic` is `static/js/app.js` (single
camera constraint, no automatic re-queue on partner loss); `mobile` is the
mobile-hardened variant (constraint ladder, automatic re-queue). -/
inductive Variant where
  | basic
  | mobile
deriving DecidableEq, Repr

/-- The mutable globals of a web client: the socket, the peer connection
reference `pc`, the local stream, and the match/restart bookkeeping,
together with the two ghost fields described in the header. -/
structure ClientState where
  hasSocket : Bool
  socketConnected : Bool
  pc : Option Nat
  liveLinks : List Nat
  nextId : Nat
  localStream : Option Nat
  stoppedStreams : List Nat
  matched : Bool
  iceRestarts : Nat
  peerInitiator : Bool
  iceState : IceState
  remoteDescSet : Bool
  retryPrompt : Bool
deriving DecidableEq, Repr

/-- The client state right after login and `connectSocket()`: socket up,
no peer connection, no local stream. -/
def initState : ClientState :=
  { hasSocket := true
    socketConnected := true
    pc := none
    liveLinks := []
    nextId := 0
    localStream := none
    stoppedStreams := []
    matched := false
    iceRestarts := 0
    peerInitiator := false
    iceState := .newState
    remoteDescSet := false
    retryPrompt := false }

/-- The constant `MAX_ICE_RESTARTS` (`Config.maxICERestarts` on iOS). -/
def maxIceRestarts : Nat := 3

/-- Model of `closePeer()`: close and drop the current peer connection (if any) and
reset the restart counter. -/
def closePeer (s : ClientState) : ClientState :=
  match s.pc with
  | some i =>
    { s with pc := none, liveLinks := s.liveLinks.erase i, iceRestarts := 0 }
  | none => { s with iceRestarts := 0 }

/-- Model of `stopCamera()`: stop all tracks of the local stream and drop it.  The
stopped stream id is recorded in the ghost `stoppedStreams`. -/
def stopCamera (s : ClientState) : ClientState :=
  match s.localStream with
  | some m =>
    { s with localStream := none, stoppedStreams := m :: s.stoppedStreams }
  | none => s

/-- The value returned by `getCamera()` as a function of the variant, the
capture oracle and the current stream fields.  The basic client returns an
existing stream unconditionally and otherwise makes one attempt; the
mobile client checks the existing stream is still live, and otherwise
walks the constraint ladder. -/
def camResult (v : Variant) (gum : Gum) (ls : Option Nat)
    (stopped : List Nat) : Option Nat :=
  match ls with
  | some m =>
    match v with
    | .basic => some m
    | .mobile =>
      if stopped.contains m then tryAttempts gum gumAttempts else some m
  | none =>
    match v with
    | .basic => gum basicConstraint
    | .mobile => tryAttempts gum gumAttempts

/-- Model of `getCamera()` as a state transformer: returns the acquired stream (or
`none`) and updates `localStream` accordingly.  Tracks of a dead stream
are dropped without being stopped, exactly as in the source. -/
def getCameraSt (v : Variant) (gum : Gum) (s : ClientState) :
    Option Nat × ClientState :=
  match camResult v gum s.localStream s.stoppedStreams with
  | some m => (some m, { s with localStream := some m })
  | none => (none, { s with localStream := none })

/-- Model of `setWait()`: clear the match flag and restart counter, then
`closePeer()`. -/
def setWait (s : ClientState) : ClientState :=
  closePeer { s with matched := false, iceRestarts := 0 }

/-- Model of `setConnected()`: mark matched and reset the restart counter. -/
def setConnected (s : ClientState) : ClientState :=
  { s with matched := true, iceRestarts := 0 }

/-- Model of `setDC()`: clear the match flag and `closePeer()`. -/
def setDC (s : ClientState) : ClientState :=
  closePeer { s with matched := false }

/-- Model of `tryIceRestart()`: only when a peer connection and the socket exist
and this side initiated the match does the client create and emit a
restart offer; the responder side waits passively. -/
def tryIceRestart (s : ClientState) : List Emit :=
  if s.pc.isSome && s.hasSocket && s.peerInitiator then
    [.offerMsg true]
  else []

/-- Model of `setupPeer(isInit)`: close any prior peer connection, acquire the
camera, and only then construct a fresh connection; when no stream could
be acquired, show the retryable camera prompt and return without creating
a connection.  The initiator additionally creates and emits one offer. -/
def setupPeer (v : Variant) (gum : Gum) (isInit : Bool) (s : ClientState) :
    ClientState × List Emit :=
  let s1 := closePeer s
  match getCameraSt v gum s1 with
  | (none, s2) => ({ s2 with retryPrompt := true }, [])
  | (some _, s2) =>
    let s3 :=
      { s2 with
        pc := some s2.nextId
        liveLinks := s2.liveLinks ++ [s2.nextId]
        nextId := s2.nextId + 1
        iceState := .newState
        remoteDescSet := false
        retryPrompt := false }
    if isInit then (s3, [.offerMsg false]) else (s3, [])

/-- The events a web client reacts to: inbound socket events, peer
connection callbacks, timer callbacks and user actions.  `offerEv` and
`answerEv` carry whether applying the remote description succeeds (the
source swallows application errors); `matchedEv` and `goClick` carry the
capture oracle for the `getCamera` call they trigger. -/
inductive Ev where
  | waitingEv
  | matchedEv (init : Bool) (gum : Gum)
  | offerEv (ok : Bool)
  | answerEv (ok : Bool)
  | iceEv
  | pdEv
  | iceChange (st : IceState)
  | graceFire
  | connFailedEv
  | trackEv
  | skipClick
  | dcClick
  | logoutClick
  | goClick (gum : Gum)
  | sockDown
  | sockUp

/-- One event handler, run to completion: the next state plus the
signaling messages emitted while handling the event.  Each arm is a
direct transcription of the corresponding handler in the source; the
0.5-second delayed `emit` calls of the mobile variant are collapsed into
the handler, keeping their `io_ && io_.connected` guard. -/
def step (v : Variant) (s : ClientState) : Ev → ClientState × List Emit
  | .waitingEv => (setWait s, [])
  | .matchedEv init gum => setupPeer v gum init { s with peerInitiator := init }
  | .offerEv ok =>
    match s.pc with
    | none => (s, [])
    | some _ =>
      if ok then ({ s with remoteDescSet := true }, [.answerMsg]) else (s, [])
  | .answerEv ok =>
    match s.pc with
    | none => (s, [])
    | some _ =>
      if ok then ({ s with remoteDescSet := true }, []) else (s, [])
  | .iceEv =>
    match s.pc with
    | none => (s, [])
    | some _ => (s, [])
  | .pdEv =>
    let s1 := setDC s
    match v with
    | .basic => (s1, [])
    | .mobile =>
      (s1, if s1.hasSocket && s1.socketConnected then [.joinQueue] else [])
  | .iceChange st =>
    match s.pc with
    | none => (s, [])
    | some _ =>
      let s1 := { s with iceState := st }
      match st with
      | .disconnected => (s1, [])
      | .failed =>
        if s1.iceRestarts < maxIceRestarts then
          let s2 := { s1 with iceRestarts := s1.iceRestarts + 1 }
          (s2, tryIceRestart s2)
        else
          let s2 := setDC s1
          match v with
          | .basic => (s2, [])
          | .mobile =>
            (s2, if s2.hasSocket && s2.socketConnected then [.skipMsg] else [])
      | .connected => (setConnected s1, [])
      | .completed => (setConnected s1, [])
      | _ => (s1, [])
  | .graceFire =>
    match s.pc with
    | none => (s, [])
    | some _ =>
      if s.iceState = .disconnected ∧ s.iceRestarts < maxIceRestarts then
        let s2 := { s with iceRestarts := s.iceRestarts + 1 }
        (s2, tryIceRestart s2)
      else (s, [])
  | .connFailedEv =>
    match s.pc with
    | none => (s, [])
    | some _ =>
      if maxIceRestarts ≤ s.iceRestarts then
        let s2 := setDC s
        match v with
        | .basic => (s2, [])
        | .mobile =>
          (s2, if s2.hasSocket && s2.socketConnected then [.skipMsg] else [])
      else (s, [])
  | .trackEv =>
    match s.pc with
    | none => (s, [])
    | some _ => (setConnected s, [])
  | .skipClick => (setWait s, [.skipMsg])
  | .dcClick => (stopCamera (setDC s), [.skipMsg])
  | .logoutClick =>
    (closePeer (stopCamera { s with hasSocket := false, socketConnected := false }), [])
  | .goClick gum =>
    match getCameraSt v gum s with
    | (some _, s1) => ({ s1 with retryPrompt := false }, [.joinQueue])
    | (none, s1) => ({ s1 with retryPrompt := true }, [])
  | .sockDown => ({ s with socketConnected := false }, [])
  | .sockUp => ({ s with socketConnected := true }, [])

/-- Run a sequence of events from a state, concatenating emissions. -/
def run (v : Variant) (s : ClientState) : List Ev → ClientState × List Emit
  | [] => (s, [])
  | e :: rest =>
    let p := step v s e
    let q := run v p.1 rest
    (q.1, p.2 ++ q.2)

/-!
The iOS client (`WebRTCService` + `AppState`).  Only the pieces the
claims compare against the web clients are embedded: the peer-connection
lifecycle, the signaling-event guards, skip/disconnect/partner-loss
handling, and `startChat`'s media gate.  `DispatchQueue.main.asyncAfter`
re-queue delays are collapsed into the handler.
-/

/-- The iOS state: `WebRTCService`'s peer connection, capturer and track
fields plus `AppState`'s match flags, with the same ghost `liveLinks`
as the web model. -/
structure IosState where
  pc : Option Nat
  liveLinks : List Nat
  nextId : Nat
  capturerActive : Bool
  hasAudioTrack : Bool
  hasLocalVideo : Bool
  isMatched : Bool
  isSearching : Bool
  iceRestarts : Nat
  isInitiator : Bool
deriving DecidableEq, Repr

/-- Model of `WebRTCService.closePeer()`: close the connection, drop the remote
track, reset the restart counter. -/
def iosClosePeer (s : IosState) : IosState :=
  match s.pc with
  | some i =>
    { s with pc := none, liveLinks := s.liveLinks.erase i, iceRestarts := 0 }
  | none => { s with iceRestarts := 0 }

/-- Model of `WebRTCService.cleanup()`: `closePeer` plus stopping the capturer and
dropping the local audio and video tracks. -/
def iosCleanup (s : IosState) : IosState :=
  let s1 := iosClosePeer s
  { s1 with capturerActive := false, hasLocalVideo := false, hasAudioTrack := false }

/-- Model of `WebRTCService.setupPeer(isInitiator:)`: close any prior connection,
record the role, construct a fresh connection, and (initiator only)
create and emit one offer. -/
def iosSetupPeer (isInit : Bool) (s : IosState) : IosState × List Emit :=
  let s1 := iosClosePeer s
  let s2 :=
    { s1 with
      isInitiator := isInit
      iceRestarts := 0
      pc := some s1.nextId
      liveLinks := s1.liveLinks ++ [s1.nextId]
      nextId := s1.nextId + 1 }
  if isInit then (s2, [.offerMsg false]) else (s2, [])

/-- Model of `AppState.handleMatched`: record searching status and set up the peer
with the server-assigned role. -/
def iosHandleMatched (isInit : Bool) (s : IosState) : IosState × List Emit :=
  iosSetupPeer isInit { s with isSearching := true }

/-- Model of `WebRTCService.handleOffer`: guarded on an existing peer connection;
when the remote description applies successfully, create and emit one
answer. -/
def iosHandleOffer (applied : Bool) (s : IosState) : IosState × List Emit :=
  match s.pc with
  | none => (s, [])
  | some _ => if applied then (s, [.answerMsg]) else (s, [])

/-- Model of `WebRTCService.handleAnswer`: guarded on an existing peer connection;
applies the description with no further action. -/
def iosHandleAnswer (s : IosState) : IosState × List Emit :=
  match s.pc with
  | none => (s, [])
  | some _ => (s, [])

/-- Model of `WebRTCService.handleICE`: guarded on an existing peer connection;
feeds the candidate, errors ignored. -/
def iosHandleICE (s : IosState) : IosState × List Emit :=
  match s.pc with
  | none => (s, [])
  | some _ => (s, [])

/-- Model of `WebRTCService.tryICERestart()`: only the initiator with a live
connection creates and emits a restart offer. -/
def iosTryIceRestart (s : IosState) : List Emit :=
  if s.isInitiator && s.pc.isSome then [.offerMsg true] else []

/-- Model of `AppState.handlePartnerDisconnected`: clear the match, close the
peer, mark searching, and re-join the queue (after a collapsed 0.5 s
delay). -/
def iosHandlePartnerDisconnected (s : IosState) : IosState × List Emit :=
  let s1 := iosClosePeer { s with isMatched := false }
  ({ s1 with isSearching := true }, [.joinQueue])

/-- Model of `peerConnection(_:didChange:)` for RTCIceConnectionState.  On
`connected`/`completed` the service reports connection; on `failed` it
restarts while budget remains and otherwise reports `onDisconnected`,
which `AppState` wires to `handlePartnerDisconnected`.  The
`disconnected` arm only schedules the grace timer. -/
def iosIceChange (st : IceState) (s : IosState) : IosState × List Emit :=
  match st with
  | .connected => ({ s with isMatched := true, isSearching := false }, [])
  | .completed => ({ s with isMatched := true, isSearching := false }, [])
  | .failed =>
    if s.iceRestarts < maxIceRestarts then
      let s1 := { s with iceRestarts := s.iceRestarts + 1 }
      (s1, iosTryIceRestart s1)
    else
      iosHandlePartnerDisconnected s
  | _ => (s, [])

/-- Model of `AppState.skip()`: clear the match, close the peer (media untouched),
and send the skip control message. -/
def iosSkip (s : IosState) : IosState × List Emit :=
  (iosClosePeer { s with isMatched := false, isSearching := true }, [.skipMsg])

/-- Model of `AppState.disconnect()`: send skip, clear flags, and release all
media via `cleanup`. -/
def iosDisconnect (s : IosState) : IosState × List Emit :=
  (iosCleanup { s with isMatched := false, isSearching := false }, [.skipMsg])

/-- Model of `AppState.startChat()`: start the local stream; on success join the
queue, on failure surface the camera prompt and emit nothing. -/
def iosStartChat (mediaOk : Bool) (s : IosState) : IosState × List Emit :=
  let s1 := { s with isSearching := true }
  if mediaOk then
    ({ s1 with capturerActive := true, hasAudioTrack := true, hasLocalVideo := true },
      [.joinQueue])
  else (s1, [])

/-!
Remaining definitions: emission counters, the benign (non-failing) event
class used for match-cycle reasoning, and concrete states and oracles
used to evaluate the theorems on explicit inputs.
-/

/-- The ghost link list a state should have given its `pc` reference. -/
def pcList : Option Nat → List Nat
  | some i => [i]
  | none => []

/-- Link invariant: the ghost list of live peer connections is exactly
what the `pc` reference points to — never two live links. -/
def LinkInv (s : ClientState) : Prop :=
  s.liveLinks = pcList s.pc

/-- Is this emission an answer? -/
def isAnswerEmit : Emit → Bool
  | .answerMsg => true
  | _ => false

/-- Number of answers among a list of emissions. -/
def countAnswer (l : List Emit) : Nat := (l.filter isAnswerEmit).length

/-- A connected mid-call state: one live peer link, live local stream. -/
def sConnected : ClientState :=
  { initState with
    pc := some 0
    liveLinks := [0]
    nextId := 1
    localStream := some 0
    matched := true }

/-- A connected state whose restart budget is exhausted. -/
def sExhausted : ClientState :=
  { sConnected with iceRestarts := maxIceRestarts }

/-- A state with a live peer link whose local stream has gone away (for
example revoked by the device), so a fresh match must re-acquire. -/
def sConnNoStream : ClientState :=
  { sConnected with localStream := none }

/-- A connected initiator-side state whose link has just gone
`disconnected` (the grace timer is pending). -/
def sInitDisc : ClientState :=
  { sConnected with peerInitiator := true, iceState := .disconnected }

/-- A capture oracle denying every request. -/
def gumDeny : Gum := fun _ => none

/-- A capture oracle that denies the ideal-resolution rung but grants the
plain front-camera rung (stream id 5). -/
def gumSecondRung : Gum :=
  fun c => if c = ⟨.front, true⟩ then some 5 else none

/-- A matched iOS state: one live link, capturer running. -/
def tConnected : IosState :=
  { pc := some 0
    liveLinks := [0]
    nextId := 1
    capturerActive := true
    hasAudioTrack := true
    hasLocalVideo := true
    isMatched := true
    isSearching := false
    iceRestarts := 0
    isInitiator := false }

/-- An idle iOS state: no peer connection. -/
def tIdle : IosState :=
  { tConnected with pc := none, liveLinks := [], isMatched := false }

/-- A matched iOS state whose restart budget is exhausted. -/
def tExhausted : IosState :=
  { tConnected with iceRestarts := maxIceRestarts }

theorem closePeer_pc (s : ClientState) : (closePeer s).pc = none := by
  unfold closePeer
  cases s.pc <;> rfl

theorem closePeer_liveLinks (s : ClientState) (h : LinkInv s) :
    (closePeer s).liveLinks = [] := by
  unfold closePeer
  cases hpc : s.pc with
  | none => simpa [LinkInv, hpc, pcList] using h
  | some i =>
    have hl : s.liveLinks = [i] := by simpa [LinkInv, hpc, pcList] using h
    simp [hl]

theorem linkInv_closePeer (s : ClientState) (h : LinkInv s) :
    LinkInv (closePeer s) := by
  unfold LinkInv
  rw [closePeer_pc, closePeer_liveLinks s h]
  rfl

theorem closePeer_localStream (s : ClientState) :
    (closePeer s).localStream = s.localStream := by
  unfold closePeer
  cases s.pc <;> rfl

theorem closePeer_stoppedStreams (s : ClientState) :
    (closePeer s).stoppedStreams = s.stoppedStreams := by
  unfold closePeer
  cases s.pc <;> rfl

theorem stopCamera_pc (s : ClientState) : (stopCamera s).pc = s.pc := by
  unfold stopCamera
  cases s.localStream <;> rfl

theorem stopCamera_liveLinks (s : ClientState) :
    (stopCamera s).liveLinks = s.liveLinks := by
  unfold stopCamera
  cases s.localStream <;> rfl

theorem getCameraSt_snd_pc (v : Variant) (gum : Gum) (s : ClientState) :
    ((getCameraSt v gum s).2).pc = s.pc := by
  unfold getCameraSt
  cases camResult v gum s.localStream s.stoppedStreams <;> rfl

theorem getCameraSt_snd_liveLinks (v : Variant) (gum : Gum) (s : ClientState) :
    ((getCameraSt v gum s).2).liveLinks = s.liveLinks := by
  unfold getCameraSt
  cases camResult v gum s.localStream s.stoppedStreams <;> rfl

theorem getCameraSt_snd_nextId (v : Variant) (gum : Gum) (s : ClientState) :
    ((getCameraSt v gum s).2).nextId = s.nextId := by
  unfold getCameraSt
  cases camResult v gum s.localStream s.stoppedStreams <;> rfl

theorem getCameraSt_snd_stoppedStreams (v : Variant) (gum : Gum) (s : ClientState) :
    ((getCameraSt v gum s).2).stoppedStreams = s.stoppedStreams := by
  unfold getCameraSt
  cases camResult v gum s.localStream s.stoppedStreams <;> rfl

theorem getCameraSt_fst (v : Variant) (gum : Gum) (s : ClientState) :
    (getCameraSt v gum s).1 = camResult v gum s.localStream s.stoppedStreams := by
  unfold getCameraSt
  cases camResult v gum s.localStream s.stoppedStreams <;> rfl

theorem linkInv_of_fields {s t : ClientState} (h : LinkInv s)
    (hp : t.pc = s.pc) (hl : t.liveLinks = s.liveLinks) : LinkInv t := by
  unfold LinkInv at h ⊢
  rw [hp, hl]
  exact h

theorem linkInv_setDC (s : ClientState) (h : LinkInv s) : LinkInv (setDC s) :=
  linkInv_closePeer _ (linkInv_of_fields h rfl rfl)

theorem linkInv_setWait (s : ClientState) (h : LinkInv s) : LinkInv (setWait s) :=
  linkInv_closePeer _ (linkInv_of_fields h rfl rfl)

theorem linkInv_setupPeer (v : Variant) (gum : Gum) (init : Bool)
    (s : ClientState) (h : LinkInv s) : LinkInv (setupPeer v gum init s).1 := by
  have hpc := closePeer_pc s
  have hll := closePeer_liveLinks s h
  simp only [setupPeer]
  rcases hg : getCameraSt v gum (closePeer s) with ⟨mres, s2⟩
  have h2pc : s2.pc = none := by
    have h' := getCameraSt_snd_pc v gum (closePeer s)
    rw [hg] at h'
    simpa [hpc] using h'
  have h2ll : s2.liveLinks = [] := by
    have h' := getCameraSt_snd_liveLinks v gum (closePeer s)
    rw [hg] at h'
    simpa [hll] using h'
  cases mres with
  | none => simp [LinkInv, pcList, h2pc, h2ll]
  | some m =>
    cases init <;> simp [LinkInv, pcList, h2ll]

theorem linkInv_step (v : Variant) (s : ClientState) (e : Ev)
    (h : LinkInv s) : LinkInv (step v s e).1 := by
  cases e with
  | waitingEv =>
    simp only [step]
    exact linkInv_setWait s h
  | matchedEv init gum =>
    simp only [step]
    exact linkInv_setupPeer v gum init { s with peerInitiator := init }
      (linkInv_of_fields h rfl rfl)
  | offerEv ok =>
    simp only [step]
    cases hpc : s.pc with
    | none => exact h
    | some i =>
      dsimp only
      cases ok with
      | false =>
        simp only [Bool.false_eq_true, if_false]
        exact h
      | true =>
        simp only [if_true]
        exact linkInv_of_fields h hpc.symm rfl
  | answerEv ok =>
    simp only [step]
    cases hpc : s.pc with
    | none => exact h
    | some i =>
      dsimp only
      cases ok with
      | false =>
        simp only [Bool.false_eq_true, if_false]
        exact h
      | true =>
        simp only [if_true]
        exact linkInv_of_fields h hpc.symm rfl
  | iceEv =>
    simp only [step]
    cases s.pc <;> exact h
  | pdEv =>
    simp only [step]
    cases v <;> dsimp only <;> exact linkInv_setDC s h
  | iceChange st =>
    simp only [step]
    cases hpc : s.pc with
    | none => exact h
    | some i =>
      dsimp only
      cases st with
      | disconnected =>
        dsimp only
        exact linkInv_of_fields h hpc.symm rfl
      | failed =>
        dsimp only
        by_cases hr : s.iceRestarts < maxIceRestarts
        · simp only [if_pos hr]
          exact linkInv_of_fields h hpc.symm rfl
        · simp only [if_neg hr]
          cases v <;> dsimp only <;>
            exact linkInv_setDC _ (linkInv_of_fields h hpc.symm rfl)
      | connected =>
        dsimp only
        exact linkInv_of_fields h hpc.symm rfl
      | completed =>
        dsimp only
        exact linkInv_of_fields h hpc.symm rfl
      | newState =>
        dsimp only
        exact linkInv_of_fields h hpc.symm rfl
      | checking =>
        dsimp only
        exact linkInv_of_fields h hpc.symm rfl
      | closedState =>
        dsimp only
        exact linkInv_of_fields h hpc.symm rfl
  | graceFire =>
    simp only [step]
    cases hpc : s.pc with
    | none => exact h
    | some i =>
      dsimp only
      by_cases hc : s.iceState = IceState.disconnected ∧ s.iceRestarts < maxIceRestarts
      · simp only [if_pos hc]
        exact linkInv_of_fields h hpc.symm rfl
      · simp only [if_neg hc]
        exact h
  | connFailedEv =>
    simp only [step]
    cases hpc : s.pc with
    | none => exact h
    | some i =>
      dsimp only
      by_cases hr : maxIceRestarts ≤ s.iceRestarts
      · simp only [if_pos hr]
        cases v <;> dsimp only <;> exact linkInv_setDC s h
      · simp only [if_neg hr]
        exact h
  | trackEv =>
    simp only [step]
    cases s.pc with
    | none => exact h
    | some i =>
      dsimp only
      exact linkInv_of_fields h rfl rfl
  | skipClick =>
    simp only [step]
    exact linkInv_setWait s h
  | dcClick =>
    simp only [step]
    exact linkInv_of_fields (linkInv_setDC s h) (stopCamera_pc _) (stopCamera_liveLinks _)
  | logoutClick =>
    simp only [step]
    refine linkInv_closePeer _ ?_
    exact linkInv_of_fields (linkInv_of_fields h rfl rfl) (stopCamera_pc _) (stopCamera_liveLinks _)
  | goClick gum =>
    simp only [step]
    rcases hg : getCameraSt v gum s with ⟨mres, s1⟩
    have h1pc : s1.pc = s.pc := by
      have h' := getCameraSt_snd_pc v gum s
      rw [hg] at h'
      exact h'
    have h1ll : s1.liveLinks = s.liveLinks := by
      have h' := getCameraSt_snd_liveLinks v gum s
      rw [hg] at h'
      exact h'
    cases mres with
    | none =>
      dsimp only
      exact linkInv_of_fields h h1pc h1ll
    | some m =>
      dsimp only
      exact linkInv_of_fields h h1pc h1ll
  | sockDown =>
    simp only [step]
    exact linkInv_of_fields h rfl rfl
  | sockUp =>
    simp only [step]
    exact linkInv_of_fields h rfl rfl

theorem linkInv_run (v : Variant) (evs : List Ev) (s : ClientState)
    (h : LinkInv s) : LinkInv (run v s evs).1 := by
  induction evs generalizing s with
  | nil => exact h
  | cons e rest ih =>
    simp only [run]
    exact ih _ (linkInv_step v s e h)

theorem setDC_pc (s : ClientState) : (setDC s).pc = none :=
  closePeer_pc _

/-- Claim C1: for every client variant and every sequence of channel
events and user actions from the initial state, at most one peer link is
live at any time — every `setupPeer` closes the prior link before
creating the new one, so no reachable state holds two live peer
connections. -/
theorem c1_at_most_one_live_peer_link (v : Variant) (evs : List Ev) :
    ((run v initState evs).1).liveLinks.length ≤ 1 := by
  have h := linkInv_run v evs initState rfl
  rw [h]
  cases (run v initState evs).1.pc <;> simp [pcList]

theorem setWait_localStream (s : ClientState) :
    (setWait s).localStream = s.localStream := by
  unfold setWait
  rw [closePeer_localStream]

theorem setWait_stoppedStreams (s : ClientState) :
    (setWait s).stoppedStreams = s.stoppedStreams := by
  unfold setWait
  rw [closePeer_stoppedStreams]

theorem setWait_pc (s : ClientState) : (setWait s).pc = none :=
  closePeer_pc _

theorem setDC_localStream (s : ClientState) :
    (setDC s).localStream = s.localStream := by
  unfold setDC
  rw [closePeer_localStream]

theorem setDC_stoppedStreams (s : ClientState) :
    (setDC s).stoppedStreams = s.stoppedStreams := by
  unfold setDC
  rw [closePeer_stoppedStreams]

theorem iosClosePeer_pc (t : IosState) : (iosClosePeer t).pc = none := by
  unfold iosClosePeer
  cases t.pc <;> rfl

theorem iosClosePeer_capturerActive (t : IosState) :
    (iosClosePeer t).capturerActive = t.capturerActive := by
  unfold iosClosePeer
  cases t.pc <;> rfl

theorem iosClosePeer_hasAudioTrack (t : IosState) :
    (iosClosePeer t).hasAudioTrack = t.hasAudioTrack := by
  unfold iosClosePeer
  cases t.pc <;> rfl

theorem iosClosePeer_hasLocalVideo (t : IosState) :
    (iosClosePeer t).hasLocalVideo = t.hasLocalVideo := by
  unfold iosClosePeer
  cases t.pc <;> rfl

theorem setupPeer_failure (v : Variant) (gum : Gum) (init : Bool)
    (s : ClientState)
    (hcam : camResult v gum s.localStream s.stoppedStreams = none) :
    (setupPeer v gum init s).1.pc = none
    ∧ (setupPeer v gum init s).1.liveLinks = (closePeer s).liveLinks
    ∧ (setupPeer v gum init s).2 = []
    ∧ (setupPeer v gum init s).1.retryPrompt = true := by
  simp only [setupPeer]
  rcases hg : getCameraSt v gum (closePeer s) with ⟨mres, s2⟩
  have hm : mres = none := by
    have h' := getCameraSt_fst v gum (closePeer s)
    rw [hg] at h'
    rw [closePeer_localStream, closePeer_stoppedStreams, hcam] at h'
    exact h'
  subst hm
  dsimp only
  have hpc : s2.pc = none := by
    have h' := getCameraSt_snd_pc v gum (closePeer s)
    rw [hg] at h'
    rw [h', closePeer_pc]
  have hll : s2.liveLinks = (closePeer s).liveLinks := by
    have h' := getCameraSt_snd_liveLinks v gum (closePeer s)
    rw [hg] at h'
    exact h'
  exact ⟨hpc, hll, rfl, rfl⟩

theorem setupPeer_no_restart_offer (v : Variant) (gum : Gum) (init : Bool)
    (s : ClientState) : Emit.offerMsg true ∉ (setupPeer v gum init s).2 := by
  simp only [setupPeer]
  rcases hg : getCameraSt v gum (closePeer s) with ⟨mres, s2⟩
  cases mres <;> cases init <;> simp

theorem tryIceRestart_initiator (s : ClientState)
    (h : Emit.offerMsg true ∈ tryIceRestart s) : s.peerInitiator = true := by
  unfold tryIceRestart at h
  by_cases hc : (s.pc.isSome && s.hasSocket && s.peerInitiator) = true
  · simp only [Bool.and_eq_true] at hc
    exact hc.2
  · simp [hc] at h

theorem stoppedStreams_step (v : Variant) (s : ClientState) (e : Ev)
    (hdc : e ≠ Ev.dcClick) (hlo : e ≠ Ev.logoutClick) :
    (step v s e).1.stoppedStreams = s.stoppedStreams := by
  cases e with
  | waitingEv =>
    simp only [step]
    exact setWait_stoppedStreams s
  | matchedEv init gum =>
    simp only [step, setupPeer]
    rcases hg : getCameraSt v gum (closePeer { s with peerInitiator := init }) with ⟨mres, s2⟩
    have h2 : s2.stoppedStreams = s.stoppedStreams := by
      have h' := getCameraSt_snd_stoppedStreams v gum (closePeer { s with peerInitiator := init })
      rw [hg] at h'
      rw [h', closePeer_stoppedStreams]
    cases mres with
    | none => exact h2
    | some m => cases init <;> dsimp only <;> exact h2
  | offerEv ok =>
    simp only [step]
    cases s.pc with
    | none => rfl
    | some i =>
      dsimp only
      cases ok with
      | false => simp only [Bool.false_eq_true, if_false]
      | true => simp only [if_true]
  | answerEv ok =>
    simp only [step]
    cases s.pc with
    | none => rfl
    | some i =>
      dsimp only
      cases ok with
      | false => simp only [Bool.false_eq_true, if_false]
      | true => simp only [if_true]
  | iceEv =>
    simp only [step]
    cases s.pc <;> rfl
  | pdEv =>
    simp only [step]
    cases v <;> dsimp only <;> exact setDC_stoppedStreams s
  | iceChange st =>
    simp only [step]
    cases s.pc with
    | none => rfl
    | some i =>
      dsimp only
      cases st with
      | disconnected => rfl
      | failed =>
        dsimp only
        by_cases hr : s.iceRestarts < maxIceRestarts
        · simp only [if_pos hr]
        · simp only [if_neg hr]
          cases v <;> dsimp only <;> exact setDC_stoppedStreams _
      | connected => rfl
      | completed => rfl
      | newState => rfl
      | checking => rfl
      | closedState => rfl
  | graceFire =>
    simp only [step]
    cases s.pc with
    | none => rfl
    | some i =>
      dsimp only
      by_cases hc : s.iceState = IceState.disconnected ∧ s.iceRestarts < maxIceRestarts
      · simp only [if_pos hc]
      · simp only [if_neg hc]
  | connFailedEv =>
    simp only [step]
    cases s.pc with
    | none => rfl
    | some i =>
      dsimp only
      by_cases hr : maxIceRestarts ≤ s.iceRestarts
      · simp only [if_pos hr]
        cases v <;> dsimp only <;> exact setDC_stoppedStreams _
      · simp only [if_neg hr]
  | trackEv =>
    simp only [step]
    cases s.pc <;> rfl
  | skipClick =>
    simp only [step]
    exact setWait_stoppedStreams s
  | dcClick => exact absurd rfl hdc
  | logoutClick => exact absurd rfl hlo
  | goClick gum =>
    simp only [step]
    rcases hg : getCameraSt v gum s with ⟨mres, s1⟩
    have h1 : s1.stoppedStreams = s.stoppedStreams := by
      have h' := getCameraSt_snd_stoppedStreams v gum s
      rw [hg] at h'
      exact h'
    cases mres <;> dsimp only <;> exact h1
  | sockDown => rfl
  | sockUp => rfl

/-- Claim C10: an offer, answer or ICE-candidate event arriving while no
peer connection exists is dropped by the null-`pc` guard with no effect:
no connection is created, nothing is emitted, and the state is unchanged,
in the web clients and in the iOS service alike. -/
theorem c10_null_pc_guard (v : Variant) (s : ClientState) (ok : Bool)
    (t : IosState) (hs : s.pc = none) (ht : t.pc = none) :
    step v s (.offerEv ok) = (s, [])
    ∧ step v s (.answerEv ok) = (s, [])
    ∧ step v s .iceEv = (s, [])
    ∧ iosHandleOffer ok t = (t, [])
    ∧ iosHandleAnswer t = (t, [])
    ∧ iosHandleICE t = (t, []) := by
  refine ⟨?_, ?_, ?_, ?_, ?_, ?_⟩ <;>
    simp only [step, iosHandleOffer, iosHandleAnswer, iosHandleICE, hs, ht]

/-- Witness for C10 at the initial (no-link) states. -/
theorem c10_null_pc_guard_witness :
    step Variant.basic initState (.offerEv true) = (initState, [])
    ∧ iosHandleOffer true tIdle = (tIdle, []) := by
  have h := c10_null_pc_guard Variant.basic initState true tIdle rfl rfl
  exact ⟨h.1, h.2.2.2.1⟩

/-- Counterexample to claim C5 as stated: an incoming remote offer does
not always produce an answer — when it arrives while no peer connection
exists, the handler returns without emitting anything and without any
state change. -/
theorem c5_cex_offer_without_answer :
    (step Variant.basic initState (.offerEv true)).2 = []
    ∧ (step Variant.basic initState (.offerEv true)).1 = initState := by
  decide

/-- Claim C5 (amended): for every incoming remote offer that arrives
while a peer connection exists and whose remote description applies
successfully, the offer handler records the remote description and emits
exactly one answer, in the web clients and the iOS service alike. -/
theorem c5_offer_yields_one_answer (v : Variant) (s : ClientState)
    (t : IosState) (hs : s.pc.isSome = true) (ht : t.pc.isSome = true) :
    (step v s (.offerEv true)).1.remoteDescSet = true
    ∧ (step v s (.offerEv true)).2 = [Emit.answerMsg]
    ∧ countAnswer (step v s (.offerEv true)).2 = 1
    ∧ (iosHandleOffer true t).2 = [Emit.answerMsg] := by
  rcases hpc : s.pc with _ | i
  · rw [hpc] at hs
    simp at hs
  rcases htc : t.pc with _ | j
  · rw [htc] at ht
    simp at ht
  simp only [step, iosHandleOffer, hpc, htc]
  exact ⟨rfl, rfl, rfl, rfl⟩

/-- Witness for the amended C5 at a concrete connected state. -/
theorem c5_offer_yields_one_answer_witness :
    (step Variant.basic sConnected (.offerEv true)).2 = [Emit.answerMsg]
    ∧ (iosHandleOffer true tConnected).2 = [Emit.answerMsg] := by
  have h := c5_offer_yields_one_answer Variant.basic sConnected tConnected
    (by decide) (by decide)
  exact ⟨h.2.1, h.2.2.2⟩

/-- Claim C7: a restart offer is only ever emitted by a state whose role
for the current match is initiator — for every event (grace-timer expiry
while disconnected, `failed` with budget remaining, or anything else), a
responder-side client never emits a restart offer; likewise the iOS
restart routine emits nothing for a non-initiator. -/
theorem c7_restart_offer_only_initiator (v : Variant) (s : ClientState)
    (e : Ev) :
    (Emit.offerMsg true ∈ (step v s e).2 → s.peerInitiator = true)
    ∧ (∀ t : IosState, t.isInitiator = false → iosTryIceRestart t = []) := by
  constructor
  · intro hmem
    cases e with
    | waitingEv => simp [step] at hmem
    | matchedEv init gum =>
      exact absurd hmem (setupPeer_no_restart_offer v gum init _)
    | offerEv ok =>
      simp only [step] at hmem
      split at hmem
      · simp at hmem
      · split at hmem <;> simp at hmem
    | answerEv ok =>
      simp only [step] at hmem
      split at hmem
      · simp at hmem
      · split at hmem <;> simp at hmem
    | iceEv =>
      simp only [step] at hmem
      split at hmem <;> simp at hmem
    | pdEv =>
      simp only [step] at hmem
      split at hmem
      · simp at hmem
      · dsimp only at hmem
        split at hmem <;> simp at hmem
    | iceChange st =>
      simp only [step] at hmem
      split at hmem
      · simp at hmem
      · split at hmem
        · simp at hmem
        · split at hmem
          · dsimp only at hmem
            exact tryIceRestart_initiator _ hmem
          · split at hmem
            · simp at hmem
            · dsimp only at hmem
              split at hmem <;> simp at hmem
        · simp at hmem
        · simp at hmem
        · simp at hmem
    | graceFire =>
      simp only [step] at hmem
      split at hmem
      · simp at hmem
      · split at hmem
        · dsimp only at hmem
          exact tryIceRestart_initiator _ hmem
        · simp at hmem
    | connFailedEv =>
      simp only [step] at hmem
      split at hmem
      · simp at hmem
      · split at hmem
        · split at hmem
          · simp at hmem
          · dsimp only at hmem
            split at hmem <;> simp at hmem
        · simp at hmem
    | trackEv =>
      simp only [step] at hmem
      split at hmem <;> simp at hmem
    | skipClick => simp [step] at hmem
    | dcClick => simp [step] at hmem
    | logoutClick => simp [step] at hmem
    | goClick gum =>
      simp only [step] at hmem
      split at hmem <;> simp at hmem
    | sockDown => simp [step] at hmem
    | sockUp => simp [step] at hmem
  · intro t hinit
    unfold iosTryIceRestart
    rw [hinit]
    simp

/-- Witness for C7: a concrete initiator-side grace-timer expiry emits a
restart offer, and a concrete responder-side iOS restart emits nothing. -/
theorem c7_restart_offer_only_initiator_witness :
    (Emit.offerMsg true ∈ (step Variant.basic sInitDisc .graceFire).2
      ∧ sInitDisc.peerInitiator = true)
    ∧ iosTryIceRestart tConnected = [] := by
  have h := c7_restart_offer_only_initiator Variant.basic sInitDisc .graceFire
  exact ⟨⟨by decide, h.1 (by decide)⟩, h.2 tConnected (by decide)⟩

/-- Claim C8: handling a skip closes the peer link and emits the skip
control message, but leaves the local media untouched — the local stream
reference and the set of stopped (released) streams are unchanged on the
web clients, and the iOS capturer and tracks stay alive.  Moreover local
media is released (a stream's tracks stopped) only by the explicit
disconnect or logout actions, never by any other event. -/
theorem c8_skip_keeps_media (v : Variant) (s : ClientState) (t : IosState) :
    ((step v s .skipClick).1.localStream = s.localStream
      ∧ (step v s .skipClick).1.stoppedStreams = s.stoppedStreams
      ∧ (step v s .skipClick).1.pc = none
      ∧ (step v s .skipClick).2 = [Emit.skipMsg])
    ∧ ((iosSkip t).1.capturerActive = t.capturerActive
      ∧ (iosSkip t).1.hasAudioTrack = t.hasAudioTrack
      ∧ (iosSkip t).1.hasLocalVideo = t.hasLocalVideo
      ∧ (iosSkip t).1.pc = none
      ∧ (iosSkip t).2 = [Emit.skipMsg])
    ∧ (∀ e : Ev, (step v s e).1.stoppedStreams ≠ s.stoppedStreams →
        e = Ev.dcClick ∨ e = Ev.logoutClick) := by
  refine ⟨⟨?_, ?_, ?_, rfl⟩, ⟨?_, ?_, ?_, ?_, rfl⟩, ?_⟩
  · simp only [step]
    exact setWait_localStream s
  · simp only [step]
    exact setWait_stoppedStreams s
  · simp only [step]
    exact setWait_pc s
  · exact iosClosePeer_capturerActive _
  · exact iosClosePeer_hasAudioTrack _
  · exact iosClosePeer_hasLocalVideo _
  · exact iosClosePeer_pc _
  · intro e hne
    by_cases hdc : e = Ev.dcClick
    · exact Or.inl hdc
    by_cases hlo : e = Ev.logoutClick
    · exact Or.inr hlo
    exact absurd (stoppedStreams_step v s e hdc hlo) hne

/-- Witness for C8: skipping from a concrete connected state keeps the
stream; disconnecting from it releases the stream (so the final conjunct
is applied at a non-trivial input). -/
theorem c8_skip_keeps_media_witness :
    ((step Variant.basic sConnected .skipClick).1.localStream = sConnected.localStream
      ∧ (step Variant.basic sConnected .skipClick).2 = [Emit.skipMsg])
    ∧ (iosSkip tConnected).1.capturerActive = tConnected.capturerActive
    ∧ (Ev.dcClick = Ev.dcClick ∨ Ev.dcClick = Ev.logoutClick) := by
  have h := c8_skip_keeps_media Variant.basic sConnected tConnected
  exact ⟨⟨h.1.1, h.1.2.2.2⟩, h.2.1.1, h.2.2 Ev.dcClick (by decide)⟩

/-- Claim C9: when a matched event arrives but local media acquisition
fails on every attempted constraint, `setupPeer` returns before
constructing a peer connection: the session is left with no live peer
link at all, nothing is emitted (no offer even for an initiator role),
and only the retryable camera prompt is surfaced; on iOS a failed
`startChat` likewise emits no joinQueue. -/
theorem c9_media_failure_no_link (v : Variant) (init : Bool) (gum : Gum)
    (s : ClientState) (hl : LinkInv s)
    (hcam : camResult v gum s.localStream s.stoppedStreams = none) :
    (step v s (.matchedEv init gum)).1.pc = none
    ∧ (step v s (.matchedEv init gum)).1.liveLinks = []
    ∧ (step v s (.matchedEv init gum)).2 = []
    ∧ (step v s (.matchedEv init gum)).1.retryPrompt = true
    ∧ (∀ t : IosState, (iosStartChat false t).2 = []) := by
  have h := setupPeer_failure v gum init { s with peerInitiator := init } hcam
  have hll : (closePeer { s with peerInitiator := init }).liveLinks = [] :=
    closePeer_liveLinks _ (linkInv_of_fields hl rfl rfl)
  simp only [step]
  exact ⟨h.1, h.2.1.trans hll, h.2.2.1, h.2.2.2, fun t => rfl⟩

/-- Witness for C9: a matched-as-initiator event with capture denied on
every rung, from a state holding a live prior link. -/
theorem c9_media_failure_no_link_witness :
    (step Variant.mobile sConnNoStream (.matchedEv true gumDeny)).1.pc = none
    ∧ (step Variant.mobile sConnNoStream (.matchedEv true gumDeny)).1.liveLinks = []
    ∧ (step Variant.mobile sConnNoStream (.matchedEv true gumDeny)).2 = [] := by
  have h := c9_media_failure_no_link Variant.mobile true gumDeny sConnNoStream
    (by rfl) (by rfl)
  exact ⟨h.1, h.2.1, h.2.2.1⟩

theorem closePeer_hasSocket (s : ClientState) :
    (closePeer s).hasSocket = s.hasSocket := by
  unfold closePeer
  cases s.pc <;> rfl

theorem closePeer_socketConnected (s : ClientState) :
    (closePeer s).socketConnected = s.socketConnected := by
  unfold closePeer
  cases s.pc <;> rfl

theorem setDC_hasSocket (s : ClientState) :
    (setDC s).hasSocket = s.hasSocket := by
  unfold setDC
  rw [closePeer_hasSocket]

theorem setDC_socketConnected (s : ClientState) :
    (setDC s).socketConnected = s.socketConnected := by
  unfold setDC
  rw [closePeer_socketConnected]

/-- Counterexample to claim C3 as stated: in the basic web client, a
partnerLeft event from a connected state (socket up, user has not
disconnected) closes the peer link but re-emits nothing — the session
waits for the user to press Next instead of automatically re-joining the
queue, so the claimed behaviour does not hold in every client variant. -/
theorem c3_cex_basic_no_requeue :
    sConnected.hasSocket = true
    ∧ sConnected.socketConnected = true
    ∧ (step Variant.basic sConnected .pdEv).1.pc = none
    ∧ Emit.joinQueue ∉ (step Variant.basic sConnected .pdEv).2 := by
  decide

/-- Claim C3 (amended): on partnerLeft, the mobile web client (socket
connected) and the iOS client close the peer link and automatically
re-emit joinQueue; on an unrecoverable link (restart budget exhausted and
a further `failed`), the iOS client closes and re-emits joinQueue while
the mobile web client closes and emits skip (which re-queues
server-side); the basic web client only closes the link and waits for
explicit user action. -/
theorem c3_partner_left_requeue (s : ClientState) (t : IosState) :
    (s.hasSocket = true → s.socketConnected = true →
      (step Variant.mobile s .pdEv).1.pc = none
      ∧ (step Variant.mobile s .pdEv).2 = [Emit.joinQueue])
    ∧ ((iosHandlePartnerDisconnected t).1.pc = none
      ∧ (iosHandlePartnerDisconnected t).2 = [Emit.joinQueue])
    ∧ (s.pc.isSome = true → maxIceRestarts ≤ s.iceRestarts →
        s.hasSocket = true → s.socketConnected = true →
        (step Variant.mobile s (.iceChange .failed)).1.pc = none
        ∧ (step Variant.mobile s (.iceChange .failed)).2 = [Emit.skipMsg])
    ∧ (maxIceRestarts ≤ t.iceRestarts →
        (iosIceChange .failed t).1.pc = none
        ∧ (iosIceChange .failed t).2 = [Emit.joinQueue]) := by
  refine ⟨?_, ⟨iosClosePeer_pc _, rfl⟩, ?_, ?_⟩
  · intro hs hc
    simp only [step]
    constructor
    · exact setDC_pc s
    · rw [setDC_hasSocket, setDC_socketConnected, hs, hc]
      simp
  · intro hpc hr hs hc
    rcases hp : s.pc with _ | i
    · rw [hp] at hpc
      simp at hpc
    have hnr : ¬ s.iceRestarts < maxIceRestarts := by omega
    simp only [step]
    rw [hp]
    dsimp only
    simp only [if_neg hnr]
    refine ⟨setDC_pc _, ?_⟩
    rw [setDC_hasSocket, setDC_socketConnected]
    simp [hs, hc]
  · intro hr
    have hnr : ¬ t.iceRestarts < maxIceRestarts := by omega
    unfold iosIceChange
    simp only [if_neg hnr]
    exact ⟨iosClosePeer_pc _, rfl⟩

/-- Witness for the amended C3 at concrete connected states (including
exhausted-budget link failure on both platforms). -/
theorem c3_partner_left_requeue_witness :
    ((step Variant.mobile sConnected .pdEv).1.pc = none
      ∧ (step Variant.mobile sConnected .pdEv).2 = [Emit.joinQueue])
    ∧ (iosHandlePartnerDisconnected tConnected).2 = [Emit.joinQueue]
    ∧ (step Variant.mobile sExhausted (.iceChange .failed)).2 = [Emit.skipMsg]
    ∧ (iosIceChange .failed tExhausted).2 = [Emit.joinQueue] := by
  have h1 := c3_partner_left_requeue sConnected tConnected
  have h2 := c3_partner_left_requeue sExhausted tExhausted
  exact ⟨h1.1 rfl rfl, h1.2.1.2,
    (h2.2.2.1 (by decide) (by decide) rfl rfl).2, (h2.2.2.2 (by decide)).2⟩

/-- Counterexample to claim C6 as stated: the basic web client's
`getCamera` is not a ladder — with no existing stream, when the first
(ideal resolution + front camera + audio) request is denied it returns
failure even though the second rung (front camera + audio) would have
been granted, so the operation does not stop at the first succeeding rung
and fails although not every rung fails. -/
theorem c6_cex_basic_single_rung :
    camResult Variant.basic gumSecondRung none [] = none
    ∧ gumSecondRung ⟨.front, true⟩ = some 5 := by
  decide

/-- Claim C6 (amended): the mobile web client's `getCamera` attempts the
four capture-constraint rungs in exactly the source order (ideal
resolution + front camera + audio; front camera + audio; any camera +
audio; any camera video-only), stops at the first rung that is granted,
and returns failure exactly when every rung fails; the basic web client
attempts only the first rung and fails whenever that single request
fails. -/
theorem c6_camera_ladder (gum : Gum) :
    (camResult Variant.mobile gum none [] = none ↔
      (gum ⟨.idealFront, true⟩ = none ∧ gum ⟨.front, true⟩ = none
        ∧ gum ⟨.anyCam, true⟩ = none ∧ gum ⟨.anyCam, false⟩ = none))
    ∧ (gum ⟨.idealFront, true⟩ ≠ none →
        camResult Variant.mobile gum none [] = gum ⟨.idealFront, true⟩)
    ∧ (gum ⟨.idealFront, true⟩ = none → gum ⟨.front, true⟩ ≠ none →
        camResult Variant.mobile gum none [] = gum ⟨.front, true⟩)
    ∧ (gum ⟨.idealFront, true⟩ = none → gum ⟨.front, true⟩ = none →
        gum ⟨.anyCam, true⟩ ≠ none →
        camResult Variant.mobile gum none [] = gum ⟨.anyCam, true⟩)
    ∧ (gum ⟨.idealFront, true⟩ = none → gum ⟨.front, true⟩ = none →
        gum ⟨.anyCam, true⟩ = none →
        camResult Variant.mobile gum none [] = gum ⟨.anyCam, false⟩)
    ∧ camResult Variant.basic gum none [] = gum basicConstraint := by
  rcases h1 : gum ⟨VideoReq.idealFront, true⟩ with _ | m1 <;>
    rcases h2 : gum ⟨VideoReq.front, true⟩ with _ | m2 <;>
      rcases h3 : gum ⟨VideoReq.anyCam, true⟩ with _ | m3 <;>
        rcases h4 : gum ⟨VideoReq.anyCam, false⟩ with _ | m4 <;>
          simp [camResult, gumAttempts, tryAttempts, h1, h2, h3, h4]

/-- Witness for the amended C6: with the first rung denied and the second
granted, the mobile ladder returns the second rung's stream. -/
theorem c6_camera_ladder_witness :
    camResult Variant.mobile gumSecondRung none [] = gumSecondRung ⟨.front, true⟩ :=
  (c6_camera_ladder gumSecondRung).2.2.1 (by decide) (by decide)

